import Mathlib

/-!
# Verification of the segmented Atkin sieve (`atkin_sieve.py`)

Shallow embedding of `atkin_sieve.py`.  The Python boolean array
`is_prime` (index `i` standing for the integer `min_prime + i` after
clamping) is modelled as a natural-number bitmask: bit `i` of the mask is
`is_prime[i]`.  Toggling an entry is xor with `1 <<< i`, setting it to
`True` is or with `1 <<< i`, and setting it to `False` clears the bit.

`int(math.sqrt(max_prime))` is modelled as `Nat.sqrt max_prime`; the two
agree on every input whose square root is computed exactly by the host's
floating-point sqrt (in particular on all inputs appearing in the
repository's tests).

The Python recursion `atkin_sieve2 → atkin_sieve → atkin_sieve2`
terminates because each nested call has a strictly smaller `max_prime`;
the embedding makes this structural with a fuel argument that is
initialised to `max_prime + 1` and decreases by one at each nested call.
For every input accepted by the guards the fuel never runs out
(see `bootstrap_measure_decreases`).

A raised `ValueError` is modelled as `Except.error` carrying the pair
`(min_prime, max_prime)` that the Python message interpolates.
-/

instance {ε α : Type} [DecidableEq ε] [DecidableEq α] : DecidableEq (Except ε α) := fun a b =>
  match a, b with
  | .error e, .error f =>
    if h : e = f then .isTrue (h ▸ rfl) else .isFalse (fun hh => h (Except.error.inj hh))
  | .ok x, .ok y =>
    if h : x = y then .isTrue (h ▸ rfl) else .isFalse (fun hh => h (Except.ok.inj hh))
  | .error _, .ok _ => .isFalse (fun hh => Except.noConfusion hh)
  | .ok _, .error _ => .isFalse (fun hh => Except.noConfusion hh)

/-- Newton iteration for the integer square root, with explicit fuel so
that the function is structurally recursive (and hence computable by
kernel reduction).  With fuel at least `guess` it agrees with the
well-founded `Nat.sqrt.iter`. -/
def sqrtFuel : Nat → Nat → Nat → Nat
  | 0, _, guess => guess
  | fuel + 1, n, guess =>
    let next := (guess + n / guess) / 2
    if next < guess then sqrtFuel fuel n next else guess

/-- Integer square root; models `int(math.sqrt(max_prime))` on line 131.
Newton's method starting from `n / 2` converges in at most `log2 n`
halvings, so 64 rounds of fuel make `isqrt` the exact floor square root
for every `n` below `2 ^ 64` and far beyond — a strictly wider exact
range than the double-precision `math.sqrt` of the source. -/
def isqrt (n : Nat) : Nat := if n ≤ 1 then n else sqrtFuel 64 n (n / 2)

/-- One toggle `is_prime[i] = not is_prime[i]` on the bitmask. -/
def toggle (flags i : Nat) : Nat := flags ^^^ (1 <<< i)

/-- One assignment `is_prime[i] = False` on the bitmask. -/
def clearBit (flags i : Nat) : Nat :=
  if flags.testBit i then flags ^^^ (1 <<< i) else flags

/-- `factor = int(math.sqrt(max_prime)) + 1` (line 131). -/
def factorOf (maxP : Nat) : Nat := isqrt maxP + 1

/-- Lines 123-129: the initial flag array, all `False` except for the
entries of 2 and 3 when they lie in the (clamped) range.  `m0` is the
clamped `min_prime`. -/
def initFlags (m0 maxP : Nat) : Nat :=
  let f1 : Nat := if m0 = 2 then 0 ||| (1 <<< 0) else 0
  if m0 ≤ 3 ∧ 3 ≤ maxP then f1 ||| (1 <<< (3 - m0)) else f1

/-- Lines 134-152, loop body for one pair `(x, y)`: the three quadratic
forms `3x²+y²`, `3x²−y²` (only for `x > y`) and `4x²+y²`, each toggling
the flag of its value `n` when `n` is in range and has the matching
residue mod 12.  The Python code computes the second and third values
incrementally from the first; the embedding writes the resulting values
directly (`y < x` guards the truncated subtraction exactly as the
short-circuit `x > y and ...` guards the Python comparison chain). -/
def quadStep (m0 maxP x y flags : Nat) : Nat :=
  let x2 := x * x
  let y2 := y * y
  let n1 := 3 * x2 + y2
  let f1 := if m0 ≤ n1 ∧ n1 ≤ maxP ∧ n1 % 12 = 7 then toggle flags (n1 - m0) else flags
  let n2 := 3 * x2 - y2
  let f2 := if y < x ∧ m0 ≤ n2 ∧ n2 ≤ maxP ∧ n2 % 12 = 11 then toggle f1 (n2 - m0) else f1
  let n3 := 4 * x2 + y2
  if m0 ≤ n3 ∧ n3 ≤ maxP ∧ (n3 % 12 = 1 ∨ n3 % 12 = 5) then toggle f2 (n3 - m0) else f2

/-- Lines 132-152: the double loop `for x in range(1, factor): for y in
range(1, factor)` running `quadStep` on every pair. -/
def quadPass (m0 maxP factor flags : Nat) : Nat :=
  (List.range' 1 (factor - 1)).foldl (fun f x =>
    (List.range' 1 (factor - 1)).foldl (fun g y => quadStep m0 maxP x y g) f) flags

/-- Lines 170-177: `loop_start`, the smallest multiple of `x_squared`
that is `≥ min_prime` (or `x_squared` itself when `min_prime ≤
x_squared`), computed by remainder arithmetic exactly as in the source. -/
def elimStart (m0 x2 : Nat) : Nat :=
  if x2 < m0 then
    if m0 % x2 ≠ 0 then m0 + (x2 - m0 % x2) else m0
  else x2

/-- The number of elements of `range(loop_start, max_prime + 1,
x_squared)` (line 179). -/
def elimCnt (m0 maxP x2 : Nat) : Nat := (maxP + 1 - elimStart m0 x2 + (x2 - 1)) / x2

/-- Lines 169-180: for a prime `x`, clear the flag of every multiple of
`x²` in the range, walking `range(loop_start, max_prime + 1, x_squared)`. -/
def elimMultiples (m0 maxP x flags : Nat) : Nat :=
  let x2 := x * x
  (List.range' (elimStart m0 x2) (elimCnt m0 maxP x2) x2).foldl
    (fun f n => clearBit f (n - m0)) flags

/-- Lines 161-180: the squarefree-elimination loop `for x in range(5,
factor)`.  Primality of `x` is decided from `missing_primes` when `x` is
at most its last element, from the local flags when `x` lies in the
range, and is `False` otherwise (lines 162-166). -/
def elimPass (m0 maxP factor : Nat) (missing : List Nat) (flags : Nat) : Nat :=
  (List.range' 5 (factor - 5)).foldl (fun f x =>
    let xIsPrime : Bool :=
      if missing ≠ [] ∧ x ≤ missing.getLastD 0 then missing.contains x
      else if m0 ≤ x ∧ x ≤ maxP then f.testBit (x - m0)
      else false
    if xIsPrime then elimMultiples m0 maxP x f else f) flags

/-- Line 182: `[index + min_prime for (index, prime_flag) in
enumerate(is_prime) if prime_flag]`. -/
def collect (m0 maxP flags : Nat) : List Nat :=
  (List.range (maxP - m0 + 1)).filterMap
    (fun i => if flags.testBit i then some (m0 + i) else none)

/-- Lines 118-182 of `atkin_sieve2`, after the `min_prime > max_prime`
guard, as a function of the (already non-negative) bounds.  The first
argument is fuel, initialised to `max_prime + 1` by the wrapper and
decreased by one at each nested sieve call; since every nested call
operates on a strictly smaller `max_prime` the `0`-fuel branch is never
reached from the wrapper.  The two nested calls on lines 157 and 159 are
`atkin_sieve(m0 - 1)` and `atkin_sieve(factor)`, each of which is
`atkin_sieve2(0, bound)` because both bounds are positive. -/
def sieve2Fuel : Nat → Nat → Nat → List Nat
  | 0, _, _ => []
  | fuel + 1, minP, maxP =>
    if maxP < 2 then []
    else
      let m0 := max 2 minP
      let factor := factorOf maxP
      let flags := quadPass m0 maxP factor (initFlags m0 maxP)
      let missing :=
        if 0 < m0 ∧ m0 ≤ factor then sieve2Fuel fuel 0 (m0 - 1)
        else if factor < m0 then sieve2Fuel fuel 0 factor
        else []
      collect m0 maxP (elimPass m0 maxP factor missing flags)

/-- `atkin_sieve2(min_prime=0, max_prime=-1)` (lines 112-182).  The
`ValueError` of line 116 is the `error` case, carrying the two bounds. -/
def atkin_sieve2 (min_prime : Int := 0) (max_prime : Int := -1) :
    Except (Int × Int) (List Nat) :=
  if min_prime > max_prime then Except.error (min_prime, max_prime)
  else Except.ok (sieve2Fuel (max_prime.toNat + 1) min_prime.toNat max_prime.toNat)

/-- `atkin_sieve(max_prime)` (lines 104-107). -/
def atkin_sieve (max_prime : Int) : Except (Int × Int) (List Nat) :=
  atkin_sieve2 (min max_prime 0) max_prime

/-- The `missing_primes` value computed on lines 154-159 during a
top-level call `atkin_sieve2(minP, maxP)` (for non-negative bounds): the
nested sieve results that the elimination loop consults.  The wrapper
enters `sieve2Fuel` with fuel `maxP + 1`, so the nested calls run with
fuel `maxP`. -/
def missing_primes (minP maxP : Nat) : List Nat :=
  let m0 := max 2 minP
  let factor := factorOf maxP
  if 0 < m0 ∧ m0 ≤ factor then sieve2Fuel maxP 0 (m0 - 1)
  else if factor < m0 then sieve2Fuel maxP 0 factor
  else []

/-- The specification-side predicate of claim C6: `(x, y)` is a solution
of the quadratic form relevant for `n` — `3x² + y² = n` with
`n ≡ 7 (mod 12)`, or `3x² − y² = n` with `x > y` and `n ≡ 11 (mod 12)`,
or `4x² + y² = n` with `n mod 12 ∈ {1, 5}`. -/
def atkinRelevant (n x y : Nat) : Prop :=
  (3 * x * x + y * y = n ∧ n % 12 = 7) ∨
  (y < x ∧ 3 * x * x - y * y = n ∧ n % 12 = 11) ∨
  (4 * x * x + y * y = n ∧ (n % 12 = 1 ∨ n % 12 = 5))

instance (n x y : Nat) : Decidable (atkinRelevant n x y) := by
  unfold atkinRelevant
  exact inferInstance

/-- The specification-side solution count of claim C6: the number of
pairs `(x, y)` with `1 ≤ x, y < factor` satisfying the relevant
quadratic form for `n`. -/
def specSolutionCount (n factor : Nat) : Nat :=
  ((Finset.Ico 1 factor ×ˢ Finset.Ico 1 factor).filter
    (fun p => atkinRelevant n p.1 p.2)).card

/-! ## Basic facts about the wrapper -/

theorem sieve2Fuel_zero_max (fuel minP maxP : Nat) (h : maxP < 2) :
    sieve2Fuel fuel minP maxP = [] := by
  cases fuel with
  | zero => simp [sieve2Fuel]
  | succ f => simp [sieve2Fuel, h]

/-- C2: `atkin_sieve2` returns the `InvalidRange` error, carrying both
bounds, exactly when `min_prime > max_prime`; for `min_prime ≤
max_prime` it returns a list (so no partial result accompanies an
error). -/
theorem atkin_sieve2_error_iff (mi ma : Int) :
    ((∃ e, atkin_sieve2 mi ma = Except.error e) ↔ ma < mi) ∧
    (ma < mi → atkin_sieve2 mi ma = Except.error (mi, ma)) ∧
    (mi ≤ ma → ∃ l, atkin_sieve2 mi ma = Except.ok l) := by
  unfold atkin_sieve2
  by_cases h : mi > ma
  · refine ⟨⟨fun _ => h, fun _ => ?_⟩, fun _ => ?_, fun hle => absurd h (by omega)⟩
    · exact ⟨(mi, ma), by rw [if_pos h]⟩
    · rw [if_pos h]
  · rw [if_neg h]
    exact ⟨⟨fun ⟨e, he⟩ => absurd he (by simp), fun hlt => absurd hlt h⟩,
      fun hlt => absurd hlt h, fun _ => ⟨_, rfl⟩⟩

theorem atkin_sieve2_error_iff_witness : atkin_sieve2 1 0 = Except.error (1, 0) :=
  (atkin_sieve2_error_iff 1 0).2.1 (by decide)

/-- C3 counterexample: the claim asserts `sieve_upto(N)` agrees with
`sieve_range(0, N)` for every integer `N`, but at `N = -1` the former
returns the empty list while the latter raises `InvalidRange`. -/
theorem sieve_upto_vs_range_counterexample :
    atkin_sieve (-1) = Except.ok [] ∧ atkin_sieve2 0 (-1) = Except.error (0, -1) := by
  constructor <;> decide

/-- C3 (amended): for every `N ≥ 0`, `sieve_upto(N)` returns exactly
`sieve_range(0, N)` (in particular they agree on errors, neither
raising); for `N < 0`, `sieve_upto(N)` returns the empty list without
error (while `sieve_range(0, N)` would raise `InvalidRange`). -/
theorem sieve_upto_range_agree (N : Int) :
    (0 ≤ N → atkin_sieve N = atkin_sieve2 0 N) ∧
    (N < 0 → atkin_sieve N = Except.ok []) := by
  constructor
  · intro h
    unfold atkin_sieve
    rw [min_eq_right h]
  · intro h
    unfold atkin_sieve
    rw [min_eq_left (le_of_lt h)]
    unfold atkin_sieve2
    rw [if_neg (by omega)]
    rw [sieve2Fuel_zero_max _ _ _ (by omega)]

theorem sieve_upto_range_agree_witness : atkin_sieve 2 = atkin_sieve2 0 2 :=
  (sieve_upto_range_agree 2).1 (by decide)

/-- C4: for every valid input (`min_prime ≤ max_prime`, `2 ≤ max_prime`)
both possible bootstrap recursions of `atkin_sieve2` — on `min_prime - 1`
when the clamped `min_prime` is at most `factor`, on `factor` otherwise —
operate on a strictly smaller `max_prime`, so the recursion is
well-founded, and `atkin_sieve2` totally returns a list on every input
with `min_prime ≤ max_prime`. -/
theorem bootstrap_measure_decreases (minP maxP : Nat) (hle : minP ≤ maxP) (h2 : 2 ≤ maxP) :
    (max 2 minP ≤ factorOf maxP → max 2 minP - 1 < maxP) ∧
    (factorOf maxP < max 2 minP → factorOf maxP < maxP) ∧
    (∀ mi ma : Int, mi ≤ ma → ∃ l, atkin_sieve2 mi ma = Except.ok l) := by
  refine ⟨fun _ => by omega, fun hf => ?_, fun mi ma hle' => ?_⟩
  · have : max 2 minP ≤ maxP := by omega
    omega
  · unfold atkin_sieve2
    rw [if_neg (by omega)]
    exact ⟨_, rfl⟩

theorem bootstrap_measure_decreases_witness :
    ∃ l, atkin_sieve2 20 100 = Except.ok l :=
  (bootstrap_measure_decreases 20 100 (by decide) (by decide)).2.2 20 100 (by decide)

/-- C8: for every input with `min_prime ≤ max_prime < 2` the sieve
returns the empty list without error, and the listed boundary calls
return exactly the stated results. -/
theorem boundary_cases :
    (∀ mi ma : Int, mi ≤ ma → ma < 2 → atkin_sieve2 mi ma = Except.ok []) ∧
    atkin_sieve (-10) = Except.ok [] ∧ atkin_sieve (-1) = Except.ok [] ∧
    atkin_sieve 0 = Except.ok [] ∧ atkin_sieve 1 = Except.ok [] ∧
    atkin_sieve 2 = Except.ok [2] ∧ atkin_sieve 3 = Except.ok [2, 3] ∧
    atkin_sieve 5 = Except.ok [2, 3, 5] := by
  refine ⟨fun mi ma h1 h2 => ?_, by decide, by decide, by decide, by decide,
    by decide, by decide, by decide⟩
  unfold atkin_sieve2
  rw [if_neg (by omega)]
  rw [sieve2Fuel_zero_max _ _ _ (by omega)]

theorem boundary_cases_witness : atkin_sieve2 (-3) 1 = Except.ok [] :=
  boundary_cases.1 (-3) 1 (by decide) (by decide)

/-- C9: every `min_prime ≤ 2` is clamped to 2 — in particular
`min_prime = 1`, although the spec only mentions clamping for
non-positive values: for `min_prime ≤ 2 ≤ max_prime` the result equals
that of `min_prime = 2`, and `atkin_sieve2 1 1` returns the empty
list. -/
theorem min_clamp_below_two :
    (∀ mi ma : Int, mi ≤ 2 → 2 ≤ ma → atkin_sieve2 mi ma = atkin_sieve2 2 ma) ∧
    atkin_sieve2 1 1 = Except.ok [] := by
  refine ⟨fun mi ma h1 h2 => ?_, by decide⟩
  unfold atkin_sieve2
  rw [if_neg (by omega), if_neg (by omega)]
  have hm : max 2 mi.toNat = max 2 (2 : Int).toNat := by
    have : (2 : Int).toNat = 2 := rfl
    omega
  simp only [sieve2Fuel]
  rw [hm]

theorem min_clamp_below_two_witness : atkin_sieve2 1 5 = atkin_sieve2 2 5 :=
  min_clamp_below_two.1 1 5 (by decide) (by decide)

/-- C10: with the default `max_prime = -1`, calling `atkin_sieve2` with
only a `min_prime` raises `InvalidRange` for every `min_prime ≥ 0`
(including the no-argument call, whose default `min_prime` is 0) and
returns the empty list for every `min_prime ≤ -1`. -/
theorem default_max_prime_behavior :
    (∀ mi : Int, 0 ≤ mi → atkin_sieve2 mi = Except.error (mi, -1)) ∧
    (∀ mi : Int, mi ≤ -1 → atkin_sieve2 mi = Except.ok []) := by
  constructor
  · intro mi h
    unfold atkin_sieve2
    rw [if_pos (by omega)]
  · intro mi h
    unfold atkin_sieve2
    rw [if_neg (by omega)]
    rw [sieve2Fuel_zero_max _ _ _ (by omega)]

theorem default_max_prime_behavior_witness :
    atkin_sieve2 0 = Except.error (0, -1) ∧ atkin_sieve2 (-1) = Except.ok [] :=
  ⟨default_max_prime_behavior.1 0 (by decide), default_max_prime_behavior.2 (-1) (by decide)⟩
